import Mathlib

/-!
A shallow embedding of `src/js/storage.js` (class `StorageManager`) of the
budget-management application, together with proofs about its behaviour.

Modelling conventions:
* `localStorage` is modelled by `Store`: one optional value per storage key
  (`none` = key never written / unreadable), plus a `writeOk` flag modelling
  whether `localStorage.setItem` succeeds (it throws e.g. on quota errors,
  which `saveToStorage` catches, returning `false` and leaving the stored
  value intact).
* Calendar dates (`new Date("YYYY-MM-DD")` values and dates built with the
  `new Date(y, m, d)` constructor) are modelled as `Date` triples compared
  lexicographically; all parsing is taken at UTC so both constructions give
  the same calendar day, matching the spec's calendar-date comparison intent.
* JS numbers produced by `parseFloat` on amounts are modelled as `ℚ`.
* `Date.now()`-based id generation and `new Date().toISOString()` timestamps
  are nondeterministic inputs; the embedding passes the fresh id and the
  current timestamp/current date as explicit parameters.
* JS object field update on the caller's record (`transaction.id = ...`) is
  modelled by returning the mutated record alongside the new store state.
-/

namespace BudgetApp

/-- A calendar date, as parsed (at UTC) from a `YYYY-MM-DD` string. -/
structure Date where
  year : Nat
  month : Nat
  day : Nat
deriving DecidableEq

/-- Models `dateA <= dateB` on parsed JS `Date` values: lexicographic on
(year, month, day), which is the timestamp order for UTC-parsed dates. -/
def Date.le (a b : Date) : Bool :=
  decide (a.year < b.year) ||
    (decide (a.year = b.year) &&
      (decide (a.month < b.month) ||
        (decide (a.month = b.month) && decide (a.day ≤ b.day))))

/-- Models strict `dateA < dateB` on parsed JS `Date` values. -/
def Date.lt (a b : Date) : Bool :=
  decide (a.year < b.year) ||
    (decide (a.year = b.year) &&
      (decide (a.month < b.month) ||
        (decide (a.month = b.month) && decide (a.day < b.day))))

/-- Gregorian leap-year test, as implemented by the JS `Date` calendar. -/
def isLeapYear (y : Nat) : Bool :=
  (decide (y % 4 = 0) && decide (y % 100 ≠ 0)) || decide (y % 400 = 0)

/-- Number of days of month `m` of year `y`; `new Date(y, m, 0)` (day zero of
the following month) resolves to this day of month `m`. -/
def daysInMonth (y m : Nat) : Nat :=
  if m = 2 then (if isLeapYear y then 29 else 28)
  else if m = 4 ∨ m = 6 ∨ m = 9 ∨ m = 11 then 30
  else 31

/-- `endDate.setFullYear(endDate.getFullYear() + 1)` on a parsed calendar
date: same month/day one year later, except that Feb 29 rolls over to Mar 1
when the target year is not a leap year (JS date-component overflow). -/
def Date.addOneYear (d : Date) : Date :=
  if d.month = 2 ∧ d.day = 29 ∧ ¬ (isLeapYear (d.year + 1) = true) then
    ⟨d.year + 1, 3, 1⟩
  else
    ⟨d.year + 1, d.month, d.day⟩

/-- A transaction record. `id`/`createdAt`/`updatedAt` are `none` until the
repository assigns them (JS `undefined`). `amount` is the number obtained by
`parseFloat`. The field `type` holds "income" or "expense" (not enforced). -/
structure Transaction where
  id : Option String
  type : String
  amount : ℚ
  category : String
  description : String
  date : Date
  createdAt : Option String
  updatedAt : Option String
deriving DecidableEq

/-- A budget record; `period` holds "monthly" or "annual" (any value other
than "monthly" is treated as annual by `getBudgetVsActual`). -/
structure Budget where
  id : Option String
  category : String
  amount : ℚ
  period : String
  startDate : Date
  createdAt : Option String
  updatedAt : Option String
deriving DecidableEq

/-- The category mapping: one ordered name list per transaction type. -/
structure Categories where
  expense : List String
  income : List String
deriving DecidableEq

/-- The `localStorage` state visible to `StorageManager`: the three values
stored under `budget_app_transactions` / `budget_app_budgets` /
`budget_app_categories` (`none` when absent or unreadable, which
`loadFromStorage` degrades to `null`), and whether `setItem` succeeds. -/
structure Store where
  transactions : Option (List Transaction)
  budgets : Option (List Budget)
  categories : Option Categories
  writeOk : Bool
deriving DecidableEq

/-- `saveToStorage` on the transactions key: on success stores the value and
returns `true`; on a `setItem` error returns `false`, value unchanged. -/
def writeTransactions (st : Store) (v : List Transaction) : Store × Bool :=
  if st.writeOk then ({ st with transactions := some v }, true) else (st, false)

/-- `saveToStorage` on the budgets key. -/
def writeBudgets (st : Store) (v : List Budget) : Store × Bool :=
  if st.writeOk then ({ st with budgets := some v }, true) else (st, false)

/-- `saveToStorage` on the categories key. -/
def writeCategories (st : Store) (v : Categories) : Store × Bool :=
  if st.writeOk then ({ st with categories := some v }, true) else (st, false)

/-- `getTransactions()`: the stored list, or `[]` when absent. -/
def getTransactions (st : Store) : List Transaction :=
  st.transactions.getD []

/-- `getBudgets()`: the stored list, or `[]` when absent. -/
def getBudgets (st : Store) : List Budget :=
  st.budgets.getD []

/-- `getCategories()`: the stored mapping, or the absent marker (`[]` in JS,
an empty array standing for "nothing stored"). -/
def getCategories (st : Store) : Option Categories :=
  st.categories

/-- JS truthiness test `!record.id`: true for `undefined` and for `""`. -/
def idIsFalsy : Option String → Bool
  | none => true
  | some s => s == ""

/-- JS `Array.prototype.findIndex` (with `-1` rendered as `none`). -/
def findIndex {α : Type} (p : α → Bool) : List α → Option Nat
  | [] => none
  | a :: l => if p a then some 0 else (findIndex p l).map (· + 1)

/-- The shared save pattern: replace the element at the first index matching
`p` if one exists, else append (`array[idx] = x` vs `array.push(x)`). -/
def upsertBy {α : Type} (p : α → Bool) (x : α) (l : List α) : List α :=
  match findIndex p l with
  | some i => l.set i x
  | none => l ++ [x]

/-- The id/timestamp assignment performed by `saveTransaction` on the
caller's record before writing: a falsy id gets the fresh id and `createdAt`;
`updatedAt` is always refreshed. -/
def assignTransactionMeta (tx : Transaction) (freshId now : String) : Transaction :=
  let tx1 := if idIsFalsy tx.id then
    { tx with id := some freshId, createdAt := some now } else tx
  { tx1 with updatedAt := some now }

/-- `saveTransaction(transaction)`. Returns the caller-visible mutated
record, the resulting storage state, and the reported success flag. -/
def saveTransaction (st : Store) (tx : Transaction) (freshId now : String) :
    Transaction × Store × Bool :=
  let transactions := getTransactions st
  let tx2 := assignTransactionMeta tx freshId now
  let updated := upsertBy (fun t => t.id == tx2.id) tx2 transactions
  let ws := writeTransactions st updated
  (tx2, ws.1, ws.2)

/-- `deleteTransaction(transactionId)`: keep every record whose id differs. -/
def deleteTransaction (st : Store) (transactionId : String) : Store × Bool :=
  let filtered := (getTransactions st).filter (fun t => t.id != some transactionId)
  writeTransactions st filtered

/-- `getTransactionById(transactionId)`: first match or absent. -/
def getTransactionById (st : Store) (transactionId : String) : Option Transaction :=
  (getTransactions st).find? (fun t => t.id == some transactionId)

/-- `getTransactionsByDateRange(startDate, endDate)`: inclusive at both
bounds. -/
def getTransactionsByDateRange (st : Store) (startDate endDate : Date) :
    List Transaction :=
  (getTransactions st).filter
    (fun t => Date.le startDate t.date && Date.le t.date endDate)

/-- `getTransactionsByCategory(category)`. -/
def getTransactionsByCategory (st : Store) (category : String) : List Transaction :=
  (getTransactions st).filter (fun t => t.category == category)

/-- `getTransactionsByType(type)`. -/
def getTransactionsByType (st : Store) (ty : String) : List Transaction :=
  (getTransactions st).filter (fun t => t.type == ty)

/-- The id/timestamp assignment performed by `saveBudget`. -/
def assignBudgetMeta (b : Budget) (freshId now : String) : Budget :=
  let b1 := if idIsFalsy b.id then
    { b with id := some freshId, createdAt := some now } else b
  { b1 with updatedAt := some now }

/-- `saveBudget(budget)`: same shape as `saveTransaction`. -/
def saveBudget (st : Store) (b : Budget) (freshId now : String) :
    Budget × Store × Bool :=
  let budgets := getBudgets st
  let b2 := assignBudgetMeta b freshId now
  let updated := upsertBy (fun x => x.id == b2.id) b2 budgets
  let ws := writeBudgets st updated
  (b2, ws.1, ws.2)

/-- `deleteBudget(budgetId)`. -/
def deleteBudget (st : Store) (budgetId : String) : Store × Bool :=
  let filtered := (getBudgets st).filter (fun b => b.id != some budgetId)
  writeBudgets st filtered

/-- `getBudgetById(budgetId)`. -/
def getBudgetById (st : Store) (budgetId : String) : Option Budget :=
  (getBudgets st).find? (fun b => b.id == some budgetId)

/-- The fixed default category lists seeded by `initializeCategories`. -/
def defaultCategories : Categories :=
  { expense := ["Food & Dining", "Transportation", "Shopping", "Entertainment",
      "Bills & Utilities", "Healthcare", "Education", "Travel", "Housing",
      "Insurance", "Personal Care", "Gifts & Donations", "Other"],
    income := ["Salary", "Freelance", "Business", "Investments",
      "Rental Income", "Bonuses", "Other Income"] }

/-- `saveCategories(categories)`. -/
def saveCategories (st : Store) (c : Categories) : Store × Bool :=
  writeCategories st c

/-- `initializeCategories()`: `getCategories()` yields the JS `[]` fallback
exactly when nothing is stored, and only that value has `.length === 0` (a
stored category mapping is an object, whose `length` is `undefined`), so the
defaults are seeded precisely when the categories key is absent. -/
def initCategories (st : Store) : Store :=
  match st.categories with
  | none => (saveCategories st defaultCategories).1
  | some _ => st

/-- The `StorageManager` constructor: records the storage keys and runs
`initializeCategories()` against the ambient storage state. -/
def mkStorageManager (st : Store) : Store :=
  initCategories st

/-- A storage state in which no key was ever written and writes succeed. -/
def freshStore : Store :=
  { transactions := none, budgets := none, categories := none, writeOk := true }

/-- `getCategoriesByType(type)`: the list under that key, or `[]`. -/
def getCategoriesByType (st : Store) (ty : String) : List String :=
  match st.categories with
  | none => []
  | some c => if ty == "expense" then c.expense
      else if ty == "income" then c.income
      else []

/-- The range restriction shared by the analytics helpers: the filter runs
only when both `startDate` and `endDate` are truthy (`null` default skips). -/
def restrictRange (txs : List Transaction) :
    Option Date → Option Date → List Transaction
  | some s, some e => txs.filter (fun t => Date.le s t.date && Date.le t.date e)
  | _, _ => txs

/-- `getTotalIncome(startDate, endDate)` (both default to `null`). -/
def getTotalIncome (st : Store) (startDate endDate : Option Date) : ℚ :=
  (restrictRange (getTransactionsByType st "income") startDate endDate).foldl
    (fun total t => total + t.amount) 0

/-- `getTotalExpenses(startDate, endDate)`. -/
def getTotalExpenses (st : Store) (startDate endDate : Option Date) : ℚ :=
  (restrictRange (getTransactionsByType st "expense") startDate endDate).foldl
    (fun total t => total + t.amount) 0

/-- `getNetBalance(startDate, endDate)`. -/
def getNetBalance (st : Store) (startDate endDate : Option Date) : ℚ :=
  getTotalIncome st startDate endDate - getTotalExpenses st startDate endDate

/-- One step of the `categoryTotals` accumulation of
`getSpendingByCategory`: add to an existing key, else append it (JS object
insertion order preserved; rendered as an association list). -/
def addToCategory (c : String) (amt : ℚ) : List (String × ℚ) → List (String × ℚ)
  | [] => [(c, amt)]
  | (k, v) :: rest =>
      if k == c then (k, v + amt) :: rest else (k, v) :: addToCategory c amt rest

/-- `getSpendingByCategory(startDate, endDate)`: expense totals per category,
keys appearing in first-occurrence order, absent categories omitted. -/
def getSpendingByCategory (st : Store) (startDate endDate : Option Date) :
    List (String × ℚ) :=
  (restrictRange (getTransactionsByType st "expense") startDate endDate).foldl
    (fun acc t => addToCategory t.category t.amount acc) []

/-- One month's entry of `getMonthlySpendingData`'s result object. -/
structure MonthEntry where
  income : ℚ
  expense : ℚ
deriving DecidableEq

/-- `monthlyData[monthKey][transaction.type] += parseFloat(...)`, restricted
to the `income`/`expense` fields (any other `type` writes a stray field that
the 12 returned entries' income/expense components never reflect). -/
def addTx (e : MonthEntry) (ty : String) (amt : ℚ) : MonthEntry :=
  if ty == "income" then { e with income := e.income + amt }
  else if ty == "expense" then { e with expense := e.expense + amt }
  else e

/-- The pre-seeded `monthlyData` object: keys `year-01` .. `year-12` (all
sharing the same year, so rendered by month number), each `{income: 0,
expense: 0}`. -/
def initMonths : List (Nat × MonthEntry) :=
  (List.range 12).map (fun i => (i + 1, ⟨0, 0⟩))

/-- Folding one transaction into `monthlyData`: only transactions of the
requested year contribute, under the existing key of their month (the
`if (monthlyData[monthKey])` guard skips out-of-range keys). -/
def monthStep (year : Nat) (md : List (Nat × MonthEntry)) (t : Transaction) :
    List (Nat × MonthEntry) :=
  if t.date.year == year then
    md.map (fun p =>
      if p.1 == t.date.month then (p.1, addTx p.2 t.type t.amount) else p)
  else md

/-- `getMonthlySpendingData(year)`. -/
def getMonthlySpendingData (st : Store) (year : Nat) : List (Nat × MonthEntry) :=
  (getTransactions st).foldl (monthStep year) initMonths

/-- One element of `getBudgetVsActual()`'s result. `percentage` is modelled
in `ℚ`; the JS division by a zero `budgetAmount` instead yields
`Infinity`/`NaN`, a documented edge case not relied on below. -/
structure BudgetReport where
  category : String
  budgetAmount : ℚ
  actualSpent : ℚ
  remaining : ℚ
  percentage : ℚ
deriving DecidableEq

/-- `getBudgetVsActual()`, with the ambient current date passed explicitly.
A `monthly` period resolves to the current calendar month (`new Date(y, m,
1)` through `new Date(y, m + 1, 0)`, the last day of the month); any other
period resolves to `[budget.startDate, startDate plus one year]`, both
comparisons inclusive (`>= startDate && <= endDate`). -/
def getBudgetVsActual (st : Store) (currentDate : Date) : List BudgetReport :=
  (getBudgets st).map (fun budget =>
    let sd := if budget.period == "monthly" then
        Date.mk currentDate.year currentDate.month 1
      else budget.startDate
    let ed := if budget.period == "monthly" then
        Date.mk currentDate.year currentDate.month
          (daysInMonth currentDate.year currentDate.month)
      else Date.addOneYear budget.startDate
    let categoryTransactions := (getTransactionsByCategory st budget.category).filter
      (fun t => Date.le sd t.date && Date.le t.date ed && t.type == "expense")
    let actualSpent := categoryTransactions.foldl (fun total t => total + t.amount) 0
    { category := budget.category,
      budgetAmount := budget.amount,
      actualSpent := actualSpent,
      remaining := budget.amount - actualSpent,
      percentage := actualSpent / budget.amount * 100 })

/-- The import payload: each collection optional (`if (data.transactions)`;
note an empty array is falsy-free in JS only for `null`/`undefined`, so
`some []` still triggers a write). -/
structure ImportPayload where
  transactions : Option (List Transaction)
  budgets : Option (List Budget)
  categories : Option Categories

/-- `importData(data)`: writes each collection present in the payload,
discarding every `saveToStorage` result. Nothing inside the `try` block can
throw on a well-formed payload (`saveToStorage` catches its own errors), so
the function returns `true` unconditionally. -/
def importData (st : Store) (data : ImportPayload) : Store × Bool :=
  let st1 := match data.transactions with
    | some v => (writeTransactions st v).1
    | none => st
  let st2 := match data.budgets with
    | some v => (writeBudgets st1 v).1
    | none => st1
  let st3 := match data.categories with
    | some v => (writeCategories st2 v).1
    | none => st2
  (st3, true)

/-! Concrete inputs used to instantiate the theorems below. -/

/-- A transaction literal with empty description and unassigned timestamps. -/
def mkTx (id : Option String) (ty : String) (amount : ℚ) (category : String)
    (date : Date) : Transaction :=
  { id := id, type := ty, amount := amount, category := category,
    description := "", date := date, createdAt := none, updatedAt := none }

/-- The fixed transaction set of the spec's aggregate-correctness property. -/
def fixedTxs : List Transaction :=
  [mkTx (some "t1") "expense" 50 "Food" ⟨2024, 1, 5⟩,
   mkTx (some "t2") "income" 1000 "Salary" ⟨2024, 1, 10⟩,
   mkTx (some "t3") "expense" 30 "Food" ⟨2024, 2, 1⟩]

/-- A store holding exactly the fixed transaction set. -/
def fixedStore : Store :=
  { transactions := some fixedTxs, budgets := none, categories := none,
    writeOk := true }

/-- A store whose underlying medium rejects every write. -/
def failingStore : Store :=
  { transactions := none, budgets := none, categories := none, writeOk := false }

/-- An annual budget for category Food starting 2024-01-05. -/
def annualFoodBudget : Budget :=
  { id := some "b1", category := "Food", amount := 100, period := "annual",
    startDate := ⟨2024, 1, 5⟩, createdAt := none, updatedAt := none }

/-- A store holding the annual Food budget and a single Food expense dated
exactly one year after the budget's start date. -/
def annualBoundaryStore : Store :=
  { transactions := some [mkTx (some "t1") "expense" 50 "Food" ⟨2025, 1, 5⟩],
    budgets := some [annualFoodBudget], categories := none, writeOk := true }

/-- A store holding a single transaction whose id is "a". -/
def oneTxStore : Store :=
  { transactions := some [mkTx (some "a") "expense" 5 "Food" ⟨2024, 3, 10⟩],
    budgets := none, categories := none, writeOk := true }

/-- A monthly budget literal carrying no id. -/
def noIdBudget : Budget :=
  { id := none, category := "Food", amount := 100, period := "monthly",
    startDate := ⟨2024, 1, 1⟩, createdAt := none, updatedAt := none }

/-- A store already holding a category mapping (post-seeding state). -/
def seededStore : Store :=
  { transactions := none, budgets := none, categories := some defaultCategories,
    writeOk := true }

/-! Spec-side formulations, written from the specification's words, used to
compare the implementation against the claimed behaviour. -/

/-- The applicable window a budget's claim assigns: a monthly budget uses the
current calendar month (first through last day) regardless of its own start
date; an annual budget starts at its `startDate` and runs one year. -/
def claimWindow (b : Budget) (currentDate : Date) : Date × Date :=
  if b.period == "monthly" then
    (⟨currentDate.year, currentDate.month, 1⟩,
     ⟨currentDate.year, currentDate.month,
       daysInMonth currentDate.year currentDate.month⟩)
  else
    (b.startDate, Date.addOneYear b.startDate)

/-- Actual spend per the amended claim: the sum of the amounts of the stored
expense transactions of the budget's category dated inside the applicable
window, the window inclusive at both ends. -/
def claimActualSpent (st : Store) (b : Budget) (currentDate : Date) : ℚ :=
  (((getTransactions st).filter (fun t =>
      Date.le (claimWindow b currentDate).1 t.date &&
        Date.le t.date (claimWindow b currentDate).2 &&
        t.type == "expense" && t.category == b.category)).map
    (fun t => t.amount)).sum

/-- Actual spend as the original claim words it for an annual budget: the
window is half-open, `[startDate, startDate + 1 year)`, so a transaction
dated exactly one year after `startDate` contributes nothing. -/
def claimAnnualSpentHalfOpen (st : Store) (b : Budget) : ℚ :=
  (((getTransactions st).filter (fun t =>
      Date.le b.startDate t.date &&
        Date.lt t.date (Date.addOneYear b.startDate) &&
        t.type == "expense" && t.category == b.category)).map
    (fun t => t.amount)).sum

/-! Helper lemmas. -/

/-- Folding addition of amounts from any seed equals seed plus the mapped sum. -/
theorem foldl_add_amount (l : List Transaction) (init : ℚ) :
    l.foldl (fun total t => total + t.amount) init =
      init + (l.map (fun t => t.amount)).sum := by
  induction l generalizing init with
  | nil => simp
  | cons t l ih => simp [ih, add_assoc]

/-- `findIndex` misses exactly when no element satisfies the test. -/
theorem findIndex_eq_none_iff {α : Type} (p : α → Bool) (l : List α) :
    findIndex p l = none ↔ ∀ a ∈ l, p a = false := by
  induction l with
  | nil => simp [findIndex]
  | cons a l ih =>
    by_cases h : p a = true
    · simp [findIndex, h]
    · simp only [Bool.not_eq_true] at h
      simp [findIndex, h, ih]

/-- A hit of `findIndex` names an element satisfying the test. -/
theorem findIndex_getElem? {α : Type} (p : α → Bool) (l : List α) (i : Nat)
    (h : findIndex p l = some i) : ∃ a, l[i]? = some a ∧ p a = true := by
  induction l generalizing i with
  | nil => simp [findIndex] at h
  | cons a l ih =>
    by_cases hp : p a = true
    · simp [findIndex, hp] at h
      exact h ▸ ⟨a, by simp, hp⟩
    · simp only [Bool.not_eq_true] at hp
      simp [findIndex, hp] at h
      obtain ⟨j, hj, rfl⟩ := h
      obtain ⟨b, hb, hpb⟩ := ih j hj
      exact ⟨b, by simpa using hb, hpb⟩

/-- Writing back the value already present leaves a list unchanged. -/
theorem set_of_getElem? {α : Type} (l : List α) (i : Nat) (v : α)
    (h : l[i]? = some v) : l.set i v = l := by
  induction l generalizing i with
  | nil => simp at h
  | cons a l ih =>
    cases i with
    | zero => simp at h; simp [h]
    | succ j => simp at h; simp [ih j h]

/-- After replacing the first test hit by `x`, `find?` returns `x`. -/
theorem find?_set_of_findIndex {α : Type} (p : α → Bool) (x : α)
    (hx : p x = true) (l : List α) (i : Nat) (h : findIndex p l = some i) :
    (l.set i x).find? p = some x := by
  induction l generalizing i with
  | nil => simp [findIndex] at h
  | cons a l ih =>
    by_cases hp : p a = true
    · simp [findIndex, hp] at h
      subst h
      simp [List.find?_cons_of_pos, hx]
    · simp only [Bool.not_eq_true] at hp
      simp [findIndex, hp] at h
      obtain ⟨j, hj, rfl⟩ := h
      simpa [List.find?_cons_of_neg, hp] using ih j hj

/-- Appending `x` to a list of test misses makes `find?` return `x`. -/
theorem find?_append_singleton {α : Type} (p : α → Bool) (x : α) (l : List α)
    (h : ∀ a ∈ l, p a = false) (hx : p x = true) :
    (l ++ [x]).find? p = some x := by
  rw [List.find?_append]
  have hnone : l.find? p = none := by
    rw [List.find?_eq_none]
    intro a ha
    simp [h a ha]
  simp [hnone, hx]

/-- `find?` after an upsert locates the upserted element. -/
theorem find?_upsertBy {α : Type} (p : α → Bool) (x : α) (l : List α)
    (hx : p x = true) : (upsertBy p x l).find? p = some x := by
  unfold upsertBy
  cases h : findIndex p l with
  | none => exact find?_append_singleton p x l ((findIndex_eq_none_iff p l).mp h) hx
  | some i => exact find?_set_of_findIndex p x hx l i h

/-- An upsert that hits an existing index keeps the length. -/
theorem length_upsertBy_of_found {α : Type} (p : α → Bool) (x : α) (l : List α)
    (i : Nat) (h : findIndex p l = some i) :
    (upsertBy p x l).length = l.length := by
  unfold upsertBy
  rw [h]
  exact List.length_set l i x

/-- An upsert keyed on `f` preserves distinctness of the `f`-keys. -/
theorem nodup_map_upsertBy {α β : Type} [BEq β] [LawfulBEq β] (f : α → β) (x : α)
    (l : List α) (hnd : (l.map f).Nodup) :
    ((upsertBy (fun a => f a == f x) x l).map f).Nodup := by
  unfold upsertBy
  cases h : findIndex (fun a => f a == f x) l with
  | none =>
    rw [List.map_append, List.nodup_append]
    refine ⟨hnd, List.nodup_singleton _, ?_⟩
    intro b hb hbx
    simp only [List.map_cons, List.map_nil, List.mem_singleton] at hbx
    obtain ⟨a, ha, rfl⟩ := List.mem_map.mp hb
    have := (findIndex_eq_none_iff _ l).mp h a ha
    rw [hbx] at this
    simp at this
  | some i =>
    rw [List.map_set]
    obtain ⟨a, ha, hpa⟩ := findIndex_getElem? _ l i h
    have hfa : f a = f x := by simpa using hpa
    have hmf : (l.map f)[i]? = some (f x) := by
      simp [ha, hfa]
    rw [set_of_getElem? _ i _ hmf]
    exact hnd

/-- A member satisfying the test forces `findIndex` to hit. -/
theorem findIndex_ne_none_of_mem {α : Type} (p : α → Bool) (l : List α) (a : α)
    (ha : a ∈ l) (hp : p a = true) : findIndex p l ≠ none := by
  intro h
  have := (findIndex_eq_none_iff p l).mp h a ha
  rw [hp] at this
  exact Bool.noConfusion this

/-- Folding transactions into the month table never changes the key column. -/
theorem foldl_monthStep_fst (year : Nat) (txs : List Transaction)
    (md : List (Nat × MonthEntry)) :
    (txs.foldl (monthStep year) md).map Prod.fst = md.map Prod.fst := by
  induction txs generalizing md with
  | nil => rfl
  | cons t txs ih =>
    rw [List.foldl_cons, ih]
    unfold monthStep
    by_cases hy : (t.date.year == year) = true
    · simp only [hy, if_pos]
      rw [List.map_map]
      apply List.map_congr_left
      intro p _
      by_cases hm : p.1 = t.date.month <;> simp [hm]
    · simp [hy]

/-- A month no transaction of the requested year touches keeps exactly the
entries it had before the fold. -/
theorem mem_foldl_monthStep (year m : Nat) (txs : List Transaction)
    (hno : ∀ t ∈ txs, ¬(t.date.year = year ∧ t.date.month = m))
    (md : List (Nat × MonthEntry)) (e : MonthEntry) :
    ((m, e) ∈ txs.foldl (monthStep year) md ↔ (m, e) ∈ md) := by
  induction txs generalizing md with
  | nil => rfl
  | cons t txs ih =>
    rw [List.foldl_cons]
    have hrest : ∀ u ∈ txs, ¬(u.date.year = year ∧ u.date.month = m) := by
      intro u hu
      exact hno u (List.mem_cons_of_mem t hu)
    rw [ih hrest]
    unfold monthStep
    by_cases hy : (t.date.year == year) = true
    · have hm : t.date.month ≠ m := by
        intro hm
        exact hno t (List.mem_cons_self t txs) ⟨by simpa using hy, hm⟩
      simp only [hy, if_pos]
      constructor
      · intro hmem
        obtain ⟨p, hp, hpe⟩ := List.mem_map.mp hmem
        by_cases hk : p.1 = t.date.month
        · exfalso
          simp only [hk] at hpe
          simp only [beq_self_eq_true, if_pos] at hpe
          have hfst := congrArg Prod.fst hpe
          simp only [hk] at hfst
          exact hm hfst
        · have hb : (p.1 == t.date.month) = false := by simpa using hk
          rw [hb] at hpe
          simp only [Bool.false_eq_true, if_false] at hpe
          exact hpe ▸ hp
      · intro hmem
        refine List.mem_map.mpr ⟨(m, e), hmem, ?_⟩
        have hk : ¬((m, e).1 = t.date.month) := fun hc => hm hc.symm
        simp [hk]
    · simp [hy]

/-! Claim C1. -/

/-- C1: refuted as stated. On a store whose medium rejects writes, the
attempted transactions write of `importData` reports failure, yet
`importData` still reports overall success: the individual `saveToStorage`
results are discarded, so a partial (or total) write failure is invisible in
the return value. -/
theorem importData_success_despite_write_failure :
    (writeTransactions failingStore []).2 = false ∧
    (importData failingStore
      { transactions := some [], budgets := none, categories := none }).2 = true :=
  ⟨rfl, rfl⟩

/-- C1 (amended): `importData` reports success unconditionally on any
well-formed snapshot, whatever the outcome of the attempted collection
writes; write failures are swallowed, not aggregated into the result. -/
theorem importData_always_reports_success (st : Store) (data : ImportPayload) :
    (importData st data).2 = true :=
  rfl

/-! Claim C2. -/

/-- C2: refuted at the annual window's far bound. For an annual budget
starting 2024-01-05 and a matching expense of 50 dated exactly one year
later (2025-01-05), `getBudgetVsActual` counts the transaction
(`actualSpent` is 50), whereas the claimed half-open window
`[startDate, startDate + 1 year)` would exclude it (sum 0): the code
compares with `<= endDate`, inclusively. -/
theorem budgetVsActual_annual_far_bound_inclusive :
    (getBudgetVsActual annualBoundaryStore ⟨2025, 6, 15⟩).map
        (fun r => r.actualSpent) = [50] ∧
    (getBudgets annualBoundaryStore).map
        (fun b => claimAnnualSpentHalfOpen annualBoundaryStore b) = [0] := by
  constructor
  · simp [getBudgetVsActual, annualBoundaryStore, annualFoodBudget, mkTx,
      getTransactionsByCategory, getTransactions, getBudgets, Date.le,
      Date.addOneYear, isLeapYear, List.filter, List.foldl]
  · simp [claimAnnualSpentHalfOpen, annualBoundaryStore, annualFoodBudget, mkTx,
      getTransactions, getBudgets, Date.le, Date.lt, Date.addOneYear, isLeapYear,
      List.filter]

/-- C2 (amended): for every stored budget, `getBudgetVsActual` reports as
`actualSpent` the sum of the amounts of the stored expense transactions of
the budget's category dated inside the applicable window — the current
calendar month (first through last day, regardless of the budget's own
`startDate`) for a monthly budget, and the closed window
`[startDate, startDate + 1 year]`, inclusive at both ends, for an annual
budget. -/
theorem budgetVsActual_window_characterization (st : Store) (currentDate : Date) :
    (getBudgetVsActual st currentDate).map (fun r => (r.category, r.actualSpent)) =
      (getBudgets st).map
        (fun b => (b.category, claimActualSpent st b currentDate)) := by
  unfold getBudgetVsActual
  rw [List.map_map]
  apply List.map_congr_left
  intro b _
  simp only [Function.comp]
  unfold claimActualSpent claimWindow getTransactionsByCategory
  cases hper : (b.period == "monthly") <;>
    simp only [hper, Bool.false_eq_true, if_false, if_true, List.filter_filter,
      foldl_add_amount, zero_add]

/-! Claim C3. -/

/-- C3: round-trip and in-place update. Saving a record without an id (when
the store write succeeds) and then looking it up by the assigned id returns
the record, which equals the input except for the assigned `id`, `createdAt`
and `updatedAt`; re-saving a record carrying a (non-empty) id already present
in the collection replaces in place, leaving the collection length unchanged
rather than appending. -/
theorem saveTransaction_roundtrip_and_update_in_place (st : Store)
    (tx rec : Transaction) (freshId now x : String)
    (hid : tx.id = none) (hok : st.writeOk = true)
    (hrid : rec.id = some x) (hx : x ≠ "")
    (hpres : some x ∈ (getTransactions st).map (fun t => t.id)) :
    (saveTransaction st tx freshId now).2.2 = true ∧
    getTransactionById (saveTransaction st tx freshId now).2.1 freshId =
      some { tx with id := some freshId, createdAt := some now,
                     updatedAt := some now } ∧
    (getTransactions (saveTransaction st rec freshId now).2.1).length =
      (getTransactions st).length := by
  have htx2 : assignTransactionMeta tx freshId now =
      { tx with id := some freshId, createdAt := some now,
                updatedAt := some now } := by
    simp [assignTransactionMeta, idIsFalsy, hid]
  have hrec2 : assignTransactionMeta rec freshId now =
      { rec with updatedAt := some now } := by
    simp [assignTransactionMeta, idIsFalsy, hrid, hx]
  refine ⟨?_, ?_, ?_⟩
  · simp [saveTransaction, writeTransactions, hok]
  · simp only [saveTransaction, writeTransactions, hok, if_true, if_pos,
      getTransactionById, getTransactions, htx2]
    exact find?_upsertBy _ _ (getTransactions st) (by simp)
  · simp only [saveTransaction, writeTransactions, hok, if_true, if_pos,
      getTransactions, hrec2]
    obtain ⟨t, ht, htid⟩ : ∃ t ∈ getTransactions st, t.id = some x := by
      simpa [eq_comm] using hpres
    have hne := findIndex_ne_none_of_mem
      (fun u => u.id == ({ rec with updatedAt := some now } : Transaction).id)
      (getTransactions st) t ht (by simp [htid, hrid])
    cases hfi : findIndex
        (fun u => u.id == ({ rec with updatedAt := some now } : Transaction).id)
        (getTransactions st) with
    | none => exact absurd hfi hne
    | some i =>
      simpa [getTransactions] using
        length_upsertBy_of_found _ _ (getTransactions st) i hfi

/-- C3 witness: the round-trip and in-place update at a concrete store
holding one transaction with id "a". -/
theorem saveTransaction_roundtrip_and_update_in_place_witness :
    (saveTransaction oneTxStore (mkTx none "expense" 7 "Food" ⟨2024, 3, 11⟩)
      "fresh" "T").2.2 = true ∧
    getTransactionById (saveTransaction oneTxStore
        (mkTx none "expense" 7 "Food" ⟨2024, 3, 11⟩) "fresh" "T").2.1 "fresh" =
      some { mkTx none "expense" 7 "Food" ⟨2024, 3, 11⟩ with
              id := some "fresh", createdAt := some "T", updatedAt := some "T" } ∧
    (getTransactions (saveTransaction oneTxStore
        (mkTx (some "a") "expense" 9 "Food" ⟨2024, 3, 12⟩) "fresh" "T").2.1).length =
      (getTransactions oneTxStore).length :=
  saveTransaction_roundtrip_and_update_in_place oneTxStore
    (mkTx none "expense" 7 "Food" ⟨2024, 3, 11⟩)
    (mkTx (some "a") "expense" 9 "Food" ⟨2024, 3, 12⟩) "fresh" "T" "a"
    rfl rfl rfl (by decide) (by decide)

/-! Claim C4. -/

/-- C4: aggregate correctness. `getTotalIncome`/`getTotalExpenses` sum the
amounts of the matching-type transactions (restricted to the inclusive date
range when one is given), yielding 0 over an empty set; `getNetBalance` is
their difference for every store state and range; and on the fixed
transaction set (expense 50 Food 2024-01-05, income 1000 Salary 2024-01-10,
expense 30 Food 2024-02-01) the totals are 80, 1000, 920 and the spending
breakdown is Food maps to 80. -/
theorem aggregates_correct :
    (∀ st, getTotalIncome st none none =
      (((getTransactions st).filter (fun t => t.type == "income")).map
        (fun t => t.amount)).sum) ∧
    (∀ st s e, getTotalIncome st (some s) (some e) =
      (((getTransactions st).filter (fun t =>
          Date.le s t.date && Date.le t.date e && t.type == "income")).map
        (fun t => t.amount)).sum) ∧
    (∀ st, getTotalExpenses st none none =
      (((getTransactions st).filter (fun t => t.type == "expense")).map
        (fun t => t.amount)).sum) ∧
    (∀ st s e, getTotalExpenses st (some s) (some e) =
      (((getTransactions st).filter (fun t =>
          Date.le s t.date && Date.le t.date e && t.type == "expense")).map
        (fun t => t.amount)).sum) ∧
    getTotalIncome freshStore none none = 0 ∧
    (∀ st s e, getNetBalance st s e =
      getTotalIncome st s e - getTotalExpenses st s e) ∧
    getTotalExpenses fixedStore none none = 80 ∧
    getTotalIncome fixedStore none none = 1000 ∧
    getNetBalance fixedStore none none = 920 ∧
    getSpendingByCategory fixedStore none none = [("Food", 80)] := by
  refine ⟨?_, ?_, ?_, ?_, ?_, fun st s e => rfl, ?_, ?_, ?_, ?_⟩
  · intro st
    simp [getTotalIncome, restrictRange, getTransactionsByType,
      foldl_add_amount]
  · intro st s e
    simp only [getTotalIncome, restrictRange, getTransactionsByType,
      List.filter_filter, foldl_add_amount, zero_add, Bool.and_assoc]
  · intro st
    simp [getTotalExpenses, restrictRange, getTransactionsByType,
      foldl_add_amount]
  · intro st s e
    simp only [getTotalExpenses, restrictRange, getTransactionsByType,
      List.filter_filter, foldl_add_amount, zero_add, Bool.and_assoc]
  · rfl
  · norm_num [getTotalExpenses, restrictRange, getTransactionsByType,
      getTransactions, fixedStore, fixedTxs, mkTx, List.filter, List.foldl]
  · norm_num [getTotalIncome, restrictRange, getTransactionsByType,
      getTransactions, fixedStore, fixedTxs, mkTx, List.filter, List.foldl]
  · norm_num [getNetBalance, getTotalIncome, getTotalExpenses, restrictRange,
      getTransactionsByType, getTransactions, fixedStore, fixedTxs, mkTx,
      List.filter, List.foldl]
  · norm_num [getSpendingByCategory, restrictRange, getTransactionsByType,
      getTransactions, fixedStore, fixedTxs, mkTx, addToCategory,
      List.filter, List.foldl]

/-! Claim C5. -/

/-- C5: monthly-series completeness. For every store state and year the
series has exactly 12 entries, keyed by the calendar months 1 through 12 in
order, and a month no transaction of that year falls in — in particular
every month when the store holds no transaction of that year at all — is
still present with income 0 and expense 0. -/
theorem monthlySeries_twelve_preseeded_months (st : Store) (year : Nat) :
    (getMonthlySpendingData st year).map Prod.fst =
      [1, 2, 3, 4, 5, 6, 7, 8, 9, 10, 11, 12] ∧
    (getMonthlySpendingData st year).length = 12 ∧
    (∀ m entry, (m, entry) ∈ getMonthlySpendingData st year →
      (∀ t ∈ getTransactions st, ¬(t.date.year = year ∧ t.date.month = m)) →
      entry = ⟨0, 0⟩) := by
  have hfst := foldl_monthStep_fst year (getTransactions st) initMonths
  refine ⟨?_, ?_, ?_⟩
  · rw [getMonthlySpendingData, hfst]
    rfl
  · have h2 := congrArg List.length hfst
    simpa [getMonthlySpendingData, initMonths] using h2
  · intro m entry hmem hno
    simp only [getMonthlySpendingData] at hmem
    have h := (mem_foldl_monthStep year m (getTransactions st) hno
      initMonths entry).mp hmem
    simp only [initMonths] at h
    obtain ⟨i, hi, hpe⟩ := List.mem_map.mp h
    exact (congrArg Prod.snd hpe).symm

/-- C5 witness: on the fresh store, the 2024 series has the 12 pre-seeded
months and month 3 carries the zero entry. -/
theorem monthlySeries_twelve_preseeded_months_witness :
    (getMonthlySpendingData freshStore 2024).map Prod.fst =
      [1, 2, 3, 4, 5, 6, 7, 8, 9, 10, 11, 12] ∧
    (getMonthlySpendingData freshStore 2024).length = 12 ∧
    (⟨0, 0⟩ : MonthEntry) = ⟨0, 0⟩ :=
  have h := monthlySeries_twelve_preseeded_months freshStore 2024
  ⟨h.1, h.2.1, h.2.2 3 ⟨0, 0⟩ (by decide) (by decide)⟩

/-! Claim C6. -/

/-- C6: the date-range lookup is inclusive at both bounds — a stored
transaction is returned exactly when its date lies within
`[startDate, endDate]` under the calendar-date order; in particular a
transaction dated exactly on either bound is included. -/
theorem dateRange_inclusive_both_bounds (st : Store) (startDate endDate : Date)
    (t : Transaction) :
    t ∈ getTransactionsByDateRange st startDate endDate ↔
      t ∈ getTransactions st ∧
        Date.le startDate t.date = true ∧ Date.le t.date endDate = true := by
  simp [getTransactionsByDateRange, List.mem_filter, and_assoc]

/-! Claim C7. -/

/-- C7: delete is idempotent. With a succeeding store write, deleting an
absent id succeeds and leaves the collection unchanged, and deleting the
same id twice succeeds both times, the collection after the second delete
equal to the collection after the first — for transactions and budgets
alike. -/
theorem delete_idempotent (st : Store) (txId bId : String)
    (hok : st.writeOk = true) :
    (deleteTransaction st txId).2 = true ∧
    ((∀ t ∈ getTransactions st, t.id ≠ some txId) →
      getTransactions (deleteTransaction st txId).1 = getTransactions st) ∧
    (deleteTransaction (deleteTransaction st txId).1 txId).2 = true ∧
    getTransactions (deleteTransaction (deleteTransaction st txId).1 txId).1 =
      getTransactions (deleteTransaction st txId).1 ∧
    (deleteBudget st bId).2 = true ∧
    ((∀ b ∈ getBudgets st, b.id ≠ some bId) →
      getBudgets (deleteBudget st bId).1 = getBudgets st) ∧
    (deleteBudget (deleteBudget st bId).1 bId).2 = true ∧
    getBudgets (deleteBudget (deleteBudget st bId).1 bId).1 =
      getBudgets (deleteBudget st bId).1 := by
  refine ⟨?_, ?_, ?_, ?_, ?_, ?_, ?_, ?_⟩
  · simp [deleteTransaction, writeTransactions, hok]
  · intro h
    simp only [deleteTransaction, writeTransactions, hok, if_true,
      getTransactions]
    exact List.filter_eq_self.mpr (fun t ht => by simp [h t ht])
  · simp [deleteTransaction, writeTransactions, hok]
  · simp [deleteTransaction, writeTransactions, hok, getTransactions,
      List.filter_filter]
  · simp [deleteBudget, writeBudgets, hok]
  · intro h
    simp only [deleteBudget, writeBudgets, hok, if_true, getBudgets]
    exact List.filter_eq_self.mpr (fun b hb => by simp [h b hb])
  · simp [deleteBudget, writeBudgets, hok]
  · simp [deleteBudget, writeBudgets, hok, getBudgets, List.filter_filter]

/-- C7 witness: deleting the absent id "zzz" from the one-transaction store
succeeds, changes nothing, and deleting it twice leaves the collection of
the first delete. -/
theorem delete_idempotent_witness :
    (deleteTransaction oneTxStore "zzz").2 = true ∧
    getTransactions (deleteTransaction oneTxStore "zzz").1 =
      getTransactions oneTxStore ∧
    getTransactions
        (deleteTransaction (deleteTransaction oneTxStore "zzz").1 "zzz").1 =
      getTransactions (deleteTransaction oneTxStore "zzz").1 :=
  have h := delete_idempotent oneTxStore "zzz" "zzz" rfl
  ⟨h.1, h.2.1 (by decide), h.2.2.2.1⟩

/-! Claim C8. -/

/-- C8: for a record passed without an id, `saveTransaction` and `saveBudget`
set the fresh id, `createdAt` and `updatedAt` on the caller's record even
when the underlying store write fails — the mutation is performed before the
write and is unaffected by its outcome. -/
theorem save_mutates_record_despite_write_failure (st : Store)
    (tx : Transaction) (b : Budget) (freshId now : String)
    (htx : tx.id = none) (hb : b.id = none) (hfail : st.writeOk = false) :
    (saveTransaction st tx freshId now).1 =
      { tx with id := some freshId, createdAt := some now,
                updatedAt := some now } ∧
    (saveTransaction st tx freshId now).2.2 = false ∧
    (saveBudget st b freshId now).1 =
      { b with id := some freshId, createdAt := some now,
               updatedAt := some now } ∧
    (saveBudget st b freshId now).2.2 = false := by
  refine ⟨?_, ?_, ?_, ?_⟩ <;>
    simp [saveTransaction, saveBudget, assignTransactionMeta, assignBudgetMeta,
      idIsFalsy, htx, hb, writeTransactions, writeBudgets, hfail]

/-- C8 witness: on the store whose writes fail, saving an id-less
transaction and an id-less budget still stamps id and timestamps on the
returned records while reporting failure. -/
theorem save_mutates_record_despite_write_failure_witness :
    (saveTransaction failingStore (mkTx none "expense" 7 "Food" ⟨2024, 3, 11⟩)
        "fresh" "T").1 =
      { mkTx none "expense" 7 "Food" ⟨2024, 3, 11⟩ with
          id := some "fresh", createdAt := some "T", updatedAt := some "T" } ∧
    (saveTransaction failingStore (mkTx none "expense" 7 "Food" ⟨2024, 3, 11⟩)
        "fresh" "T").2.2 = false ∧
    (saveBudget failingStore noIdBudget "fresh" "T").1 =
      { noIdBudget with id := some "fresh", createdAt := some "T",
                        updatedAt := some "T" } ∧
    (saveBudget failingStore noIdBudget "fresh" "T").2.2 = false :=
  save_mutates_record_despite_write_failure failingStore
    (mkTx none "expense" 7 "Food" ⟨2024, 3, 11⟩) noIdBudget "fresh" "T"
    rfl rfl rfl

/-! Claim C9. -/

/-- C9: empty-state defaults. Initializing a manager over a never-written
store seeds the fixed default category mapping, while transactions and
budgets read back as empty sequences; and the seeding runs only when no
category mapping is stored — once one exists, initialization leaves the
store untouched. -/
theorem empty_state_defaults :
    getCategories (mkStorageManager freshStore) = some defaultCategories ∧
    getTransactions (mkStorageManager freshStore) = [] ∧
    getBudgets (mkStorageManager freshStore) = [] ∧
    (∀ st c, getCategories st = some c → initCategories st = st) := by
  refine ⟨rfl, rfl, rfl, ?_⟩
  intro st c h
  unfold initCategories
  rw [show st.categories = some c from h]

/-- C9 witness: the fresh store receives the seeded defaults, and a store
already holding the mapping is left untouched by initialization. -/
theorem empty_state_defaults_witness :
    getCategories (mkStorageManager freshStore) = some defaultCategories ∧
    initCategories seededStore = seededStore :=
  ⟨empty_state_defaults.1,
   empty_state_defaults.2.2.2 seededStore defaultCategories rfl⟩

/-! Claim C10. -/

/-- C10: id uniqueness is preserved. Starting from collections whose ids are
pairwise distinct, the collections written by `saveTransaction` and
`saveBudget` (replacement at the first matching index, else append) have
pairwise-distinct ids again, and after `deleteTransaction`/`deleteBudget`
no record carrying the deleted id remains — the filter removes every
occurrence. -/
theorem ids_distinct_preserved (st : Store) (tx : Transaction) (b : Budget)
    (freshId now txId bId : String)
    (htnd : ((getTransactions st).map (fun t => t.id)).Nodup)
    (hbnd : ((getBudgets st).map (fun x => x.id)).Nodup)
    (hok : st.writeOk = true) :
    ((getTransactions (saveTransaction st tx freshId now).2.1).map
      (fun t => t.id)).Nodup ∧
    ((getBudgets (saveBudget st b freshId now).2.1).map
      (fun x => x.id)).Nodup ∧
    (∀ t ∈ getTransactions (deleteTransaction st txId).1,
      t.id ≠ some txId) ∧
    (∀ x ∈ getBudgets (deleteBudget st bId).1, x.id ≠ some bId) := by
  refine ⟨?_, ?_, ?_, ?_⟩
  · simp only [saveTransaction, writeTransactions, hok, if_true,
      getTransactions, Option.getD_some]
    exact nodup_map_upsertBy (fun t : Transaction => t.id) _ _ htnd
  · simp only [saveBudget, writeBudgets, hok, if_true, getBudgets,
      Option.getD_some]
    exact nodup_map_upsertBy (fun x : Budget => x.id) _ _ hbnd
  · intro t ht
    simp only [deleteTransaction, writeTransactions, hok, if_true,
      getTransactions] at ht
    simpa using (List.mem_filter.mp ht).2
  · intro x hx
    simp only [deleteBudget, writeBudgets, hok, if_true, getBudgets] at hx
    simpa using (List.mem_filter.mp hx).2

/-- C10 witness: at the one-transaction store (distinct ids), saving an
id-less transaction and an id-less budget keeps ids distinct, and deleting
id "a" removes every record carrying it. -/
theorem ids_distinct_preserved_witness :
    ((getTransactions (saveTransaction oneTxStore
        (mkTx none "expense" 7 "Food" ⟨2024, 3, 11⟩) "fresh" "T").2.1).map
      (fun t => t.id)).Nodup ∧
    ((getBudgets (saveBudget oneTxStore noIdBudget "fresh" "T").2.1).map
      (fun x => x.id)).Nodup ∧
    (∀ t ∈ getTransactions (deleteTransaction oneTxStore "a").1,
      t.id ≠ some "a") ∧
    (∀ x ∈ getBudgets (deleteBudget oneTxStore "a").1, x.id ≠ some "a") :=
  ids_distinct_preserved oneTxStore
    (mkTx none "expense" 7 "Food" ⟨2024, 3, 11⟩) noIdBudget "fresh" "T" "a" "a"
    (by decide) (by decide) rfl

end BudgetApp
